import Mathlib

/-!
Shallow embedding of the community-calendar-manager review tool
(src/main.py, src/tests/test_monthly_byday.py).

The pure logic of the program is translated here: the submission
validator (validate_event_data), the description formatter
(format_description), the calendar event construction performed by
add_event_to_calendar before the remote call, the spreadsheet-backed
data access layer with its read cache (load_spreadsheet_data,
update_submission_status, get_authorized_users), the review workflow
branch for the "Add to Calendar" action, and the recurrence-code
function monthly_byday exercised by the test suite.

Machine-facing details are modelled as follows: Python dates and times
become explicit structures with lexicographic comparison, the
spreadsheet becomes a row-major grid of strings, the Streamlit read
cache becomes an explicit Option value threaded through the data access
operations, remote failures become an Except parameter or a Bool
outcome, and code that can raise becomes an Option-returning function.
-/

/-- A proleptic-Gregorian calendar date (models Python datetime.date). -/
structure CalDate where
  year : Nat
  month : Nat
  day : Nat
deriving DecidableEq

/-- A time of day as produced by the Streamlit time-input widget
(seconds and microseconds are zero); models Python datetime.time. -/
structure TimeOfDay where
  hour : Nat
  minute : Nat
deriving DecidableEq

/-- Python date comparison a < b: lexicographic on (year, month, day). -/
def dateLt (a b : CalDate) : Bool :=
  a.year < b.year || (a.year == b.year && (a.month < b.month ||
    (a.month == b.month && a.day < b.day)))

/-- Python time comparison a < b: lexicographic on (hour, minute),
seconds and microseconds being zero here. -/
def timeLt (a b : TimeOfDay) : Bool :=
  a.hour < b.hour || (a.hour == b.hour && a.minute < b.minute)

/-- ASCII letter: the regex character class [A-Za-z]. -/
def isAsciiLetter (c : Char) : Bool :=
  ('A' ≤ c && c ≤ 'Z') || ('a' ≤ c && c ≤ 'z')

/-- The regex character class [A-Za-z0-9._%+-] of the local part of the
email pattern in validate_event_data (src/main.py line 482). -/
def isLocalChar (c : Char) : Bool :=
  isAsciiLetter c || c.isDigit || c == '.' || c == '_' || c == '%' ||
    c == '+' || c == '-'

/-- The regex character class [A-Za-z0-9.-] of the domain part of the
email pattern. -/
def isDomainChar (c : Char) : Bool :=
  isAsciiLetter c || c.isDigit || c == '.' || c == '-'

/-- Split a character list at every occurrence of the separator; the
result always has one more block than there are separators. -/
def splitOnChar (c : Char) : List Char → List (List Char)
  | [] => [[]]
  | x :: xs =>
    match splitOnChar c xs with
    | [] => [[]]
    | y :: ys => if x == c then [] :: y :: ys else (x :: y) :: ys

/-- Whole-string matcher for the anchored email pattern of
validate_event_data (src/main.py line 482):
local+ at-sign domain+ dot tld, with local in [A-Za-z0-9._%+-],
domain in [A-Za-z0-9.-], and tld being 2 to 6 ASCII letters.
None of the character classes contains the at-sign, so a match forces
exactly one at-sign in the string; the tld contains no dot, so the
literal dot of the pattern is the last dot after the at-sign. -/
def emailCoreMatch (s : List Char) : Bool :=
  match splitOnChar '@' s with
  | [localPart, domainPart] =>
    !localPart.isEmpty && localPart.all isLocalChar &&
      (let parts := splitOnChar '.' domainPart
       let tld := parts.getLastD []
       let front := List.intercalate ['.'] parts.dropLast
       decide (2 ≤ parts.length) && !front.isEmpty &&
         front.all isDomainChar && decide (2 ≤ tld.length) &&
         decide (tld.length ≤ 6) && tld.all isAsciiLetter)
  | _ => false

/-- Python re.match with the pattern of src/main.py line 482: the
dollar anchor also matches just before a single newline that ends the
string. -/
def re_email_match (s : String) : Bool :=
  emailCoreMatch s.data ||
    (match s.data.getLast? with
     | some c => c == '\n' && emailCoreMatch s.data.dropLast
     | none => false)

/-- The field keys of a submission record: the FIELDS class of
src/main.py lines 18-36. -/
inductive FieldKey
  | eventName
  | description
  | eventDate
  | endDate
  | startTime
  | endTime
  | location
  | eventType
  | orgName
  | phone
  | fee
  | email
deriving DecidableEq

/-- REQUIRED_FIELDS of src/main.py lines 39-48, in source order. -/
def REQUIRED_FIELDS : List FieldKey :=
  [FieldKey.eventName, FieldKey.location, FieldKey.description,
   FieldKey.orgName, FieldKey.eventType, FieldKey.fee,
   FieldKey.eventDate, FieldKey.email]

/-- OPTIONAL_FIELDS of src/main.py lines 50-54. -/
def OPTIONAL_FIELDS : List FieldKey :=
  [FieldKey.startTime, FieldKey.endTime, FieldKey.endDate]

/-- One submission as it stands after the editor widgets of
show_event_editor ran (src/main.py lines 349-442): the text fields are
strings, the two date fields are genuine dates (show_field_editor
converts them, defaulting an empty end date to the event date), and the
two time fields are optional times (empty becomes None). -/
structure EventData where
  eventName : String
  description : String
  eventDate : CalDate
  endDate : CalDate
  startTime : Option TimeOfDay
  endTime : Option TimeOfDay
  location : String
  eventType : String
  orgName : String
  phone : String
  fee : String
  email : String
deriving DecidableEq

/-- Python truthiness of event_data.get(k) for an edited submission:
strings are truthy iff nonempty, date objects are always truthy, and an
optional time is truthy iff it is not None. -/
def fieldTruthy (m : EventData) : FieldKey → Bool
  | FieldKey.eventName => !(m.eventName == "")
  | FieldKey.description => !(m.description == "")
  | FieldKey.eventDate => true
  | FieldKey.endDate => true
  | FieldKey.startTime => m.startTime.isSome
  | FieldKey.endTime => m.endTime.isSome
  | FieldKey.location => !(m.location == "")
  | FieldKey.eventType => !(m.eventType == "")
  | FieldKey.orgName => !(m.orgName == "")
  | FieldKey.phone => !(m.phone == "")
  | FieldKey.fee => !(m.fee == "")
  | FieldKey.email => !(m.email == "")

/-- The distinct messages validate_event_data can emit, one constructor
per message string of src/main.py lines 459-486:
- requiredEmpty f: "The field <f> is required and cannot be empty."
- endDateBeforeEventDate: "End Date cannot be earlier than Event Date."
- timesIgnoredMultiDay: "Start and end times are ignored for multi-day
  events." (a warning, not an error)
- startTimeMissing: "If End Time is set, Start Time must also be set."
- endTimeMissing: "If Start Time is set, End Time must also be set."
- endTimeBeforeStartTime: "End Time must be after Start Time."
- invalidEmail v: "Email <v> is not valid. Please enter a valid email
  address." -/
inductive VMsg
  | requiredEmpty (f : FieldKey)
  | endDateBeforeEventDate
  | timesIgnoredMultiDay
  | startTimeMissing
  | endTimeMissing
  | endTimeBeforeStartTime
  | invalidEmail (value : String)
deriving DecidableEq

/-- The required-field loop of validate_event_data (src/main.py lines
463-465): one error per required field whose value is falsy, in list
order. -/
def requiredFieldErrors (m : EventData) : List VMsg :=
  (REQUIRED_FIELDS.filter (fun f => !fieldTruthy m f)).map VMsg.requiredEmpty

/-- The date and time block of validate_event_data (src/main.py lines
467-479): first component the errors it appends, second component the
warnings. -/
def dateTimeChecks (m : EventData) : List VMsg × List VMsg :=
  if dateLt m.endDate m.eventDate then
    ([VMsg.endDateBeforeEventDate], [])
  else if dateLt m.eventDate m.endDate then
    if m.startTime.isSome || m.endTime.isSome then
      ([], [VMsg.timesIgnoredMultiDay])
    else ([], [])
  else if m.startTime.isSome || m.endTime.isSome then
    match m.startTime, m.endTime with
    | none, _ => ([VMsg.startTimeMissing], [])
    | some _, none => ([VMsg.endTimeMissing], [])
    | some s, some e =>
      if timeLt e s then ([VMsg.endTimeBeforeStartTime], []) else ([], [])
  else ([], [])

/-- The email check of validate_event_data (src/main.py lines
481-486). -/
def emailCheck (m : EventData) : List VMsg :=
  if re_email_match m.email then [] else [VMsg.invalidEmail m.email]

/-- What validate_event_data communicates: the accumulated errors and
warnings (surfaced through st.error and st.warning) and the returned
boolean. -/
structure ValidationResult where
  errors : List VMsg
  warnings : List VMsg
  ok : Bool
deriving DecidableEq

/-- validate_event_data of src/main.py lines 445-497: errors accumulate
in source order (required-field loop, then the date and time block,
then the email check) and the function returns True iff no error was
recorded. -/
def validate_event_data (m : EventData) : ValidationResult :=
  let errs := requiredFieldErrors m ++ (dateTimeChecks m).1 ++ emailCheck m
  { errors := errs, warnings := (dateTimeChecks m).2, ok := errs.isEmpty }

/-- Decimal rendering of a number zero-padded to two digits, as Python
isoformat renders months, days, hours and minutes. -/
def pad2 (n : Nat) : String :=
  if n < 10 then "0" ++ toString n else toString n

/-- Decimal rendering of a number zero-padded to four digits, as Python
isoformat renders years. -/
def pad4 (n : Nat) : String :=
  if n < 10 then "000" ++ toString n
  else if n < 100 then "00" ++ toString n
  else if n < 1000 then "0" ++ toString n
  else toString n

/-- Python date.isoformat(): "YYYY-MM-DD". -/
def CalDate.isoformat (d : CalDate) : String :=
  pad4 d.year ++ "-" ++ pad2 d.month ++ "-" ++ pad2 d.day

/-- Python time.isoformat() for a time with zero seconds and
microseconds: "HH:MM:SS" with seconds rendered as 00. -/
def TimeOfDay.isoformat (t : TimeOfDay) : String :=
  pad2 t.hour ++ ":" ++ pad2 t.minute ++ ":00"

/-- format_description of src/main.py lines 326-346: the HTML blob
combining description, organization, event type, fee and email. -/
def format_description (m : EventData) : String :=
  "<p>" ++ m.description ++ "</p>" ++
    "<p><strong>Submitter:</strong> " ++ m.orgName ++ "<br>" ++
    "<strong>Event Type:</strong> " ++ m.eventType ++ "<br>" ++
    "<strong>Fee:</strong> " ++ m.fee ++ "<br>" ++
    "<strong>Email:</strong> " ++ m.email ++ "</p>"

/-- A start or end entry of a Google Calendar event payload: either a
date-only entry, written in Python as a dict with a "date" key, or a
timed entry, a dict with "dateTime" and "timeZone" keys. -/
inductive GDateSpec
  | date (d : String)
  | dateTime (dt : String) (timeZone : String)
deriving DecidableEq

/-- The event payload built by add_event_to_calendar before the remote
insert call (src/main.py lines 290-307); the stop field models the
"end" key of the Python dict. -/
structure GCalEvent where
  summary : String
  location : String
  description : String
  start : GDateSpec
  stop : GDateSpec
deriving DecidableEq

/-- The payload-construction part of add_event_to_calendar (src/main.py
lines 290-307). When Start Time is None the event is date-only over
Event Date and End Date; otherwise start and end are the respective
dates concatenated with a "T" and the respective times, both tagged
with the fixed America/Chicago time zone. This code runs before the
try block: when Start Time is set but End Time is None, the Python
expression event_data[FIELDS.END_TIME].isoformat() raises an uncaught
AttributeError, modelled as none. -/
def build_calendar_event (m : EventData) : Option GCalEvent :=
  match m.startTime with
  | none =>
    some { summary := m.eventName, location := m.location,
           description := format_description m,
           start := GDateSpec.date m.eventDate.isoformat,
           stop := GDateSpec.date m.endDate.isoformat }
  | some t =>
    match m.endTime with
    | none => none
    | some e =>
      some { summary := m.eventName, location := m.location,
             description := format_description m,
             start := GDateSpec.dateTime
               (m.eventDate.isoformat ++ "T" ++ t.isoformat) "America/Chicago",
             stop := GDateSpec.dateTime
               (m.endDate.isoformat ++ "T" ++ e.isoformat) "America/Chicago" }

/-- The worksheet grid behind gspread: a row-major list of rows of
cell strings; row 0 is the header row. -/
abbrev Worksheet := List (List String)

/-- Replace the element at a 0-based position, leaving the list
unchanged when the position is out of range. -/
def setAt {α : Type} : List α → Nat → (α → α) → List α
  | [], _, _ => []
  | x :: xs, 0, f => f x :: xs
  | x :: xs, n + 1, f => x :: setAt xs n f

/-- worksheet.update_cell(rowNum, colNum, v) of gspread: 1-based row
and column indices into the grid. -/
def update_cell (ws : Worksheet) (rowNum colNum : Nat) (v : String) : Worksheet :=
  setAt ws (rowNum - 1) (fun row => setAt row (colNum - 1) (fun _ => v))

/-- worksheet.row_values(1): the header row. -/
def headersOf (ws : Worksheet) : List String := ws.headD []

/-- Python list.index restricted to success as an Option: the 0-based
position of the first occurrence, none when absent (where Python raises
ValueError). -/
def index_of (k : String) : List String → Option Nat
  | [] => none
  | h :: t => if h == k then some 0 else (index_of k t).map (· + 1)

/-- One record of worksheet.get_all_records() for a rectangular sheet:
the header row zipped with a data row. -/
def recordOf (headers row : List String) : List (String × String) :=
  headers.zip row

/-- The Status cell of a record, looked up by column name as pandas
does with df["Status"]. -/
def statusOf (r : List (String × String)) : String :=
  (r.lookup "Status").getD ""

/-- The two terminal statuses filtered out of the review queue
(src/main.py line 150). -/
def is_terminal (s : String) : Bool :=
  s == "Ignored" || s == "Added to Calendar"

/-- Drop the Status and Last Updated By columns from a record, as the
df.drop call of src/main.py line 153 does. -/
def dropStatusCols (r : List (String × String)) : List (String × String) :=
  r.filter (fun kv => !(kv.1 == "Status") && !(kv.1 == "Last Updated By"))

/-- Pair every element with its 0-based position starting at n. -/
def indexedFrom {α : Type} : Nat → List α → List (Nat × α)
  | _, [] => []
  | n, x :: xs => (n, x) :: indexedFrom (n + 1) xs

/-- Pair every element with its 0-based position: the pandas integer
index that get_all_records rows receive and that filtering preserves
(selected_row.name is such an index). -/
def indexed {α : Type} (l : List α) : List (Nat × α) := indexedFrom 0 l

/-- The DataFrame returned by load_spreadsheet_data: original row
indices paired with the displayed records. -/
abbrev DF := List (Nat × List (String × String))

/-- The filtered view computed by load_spreadsheet_data on a cache miss
(src/main.py lines 146-155): records of the data rows keyed by their
original 0-based index, rows with a terminal status removed, the Status
and Last Updated By columns dropped. -/
def dfOf (ws : Worksheet) : DF :=
  ((indexed ws.tail).filter
      (fun p => !is_terminal (statusOf (recordOf (headersOf ws) p.2)))).map
    (fun p => (p.1, dropStatusCols (recordOf (headersOf ws) p.2)))

/-- load_spreadsheet_data of src/main.py lines 118-166 with the
st.cache_data memoization made explicit. Returns the value the caller
sees (none models the st.stop abort paths) and the cache afterwards.
On a cache hit the cached DataFrame is returned unchanged; on a miss
the sheet is read: an empty record set short-circuits the filtering,
and filtering a nonempty record set requires the Status column (its
absence raises a KeyError, caught and turned into st.stop, leaving the
cache unfilled). -/
def load_spreadsheet_data (ws : Worksheet) (cache : Option DF) :
    Option DF × Option DF :=
  match cache with
  | some df => (some df, some df)
  | none =>
    if ws.tail.isEmpty then (some [], some [])
    else
      match index_of "Status" (headersOf ws) with
      | some _ => (some (dfOf ws), some (dfOf ws))
      | none => (none, none)

/-- update_submission_status of src/main.py lines 204-250 with the
cache explicit. The header row is searched for the Status and Last
Updated By columns (list.index raising, caught by the except branch
that returns False and leaves the cache alone, is the none case);
on success the status and actor cells of sheet row row_idx + 2 are
written, st.cache_data.clear() empties the cache, and True is
returned. -/
def update_submission_status (ws : Worksheet) (cache : Option DF)
    (row_idx : Nat) (status actor : String) :
    Worksheet × Option DF × Bool :=
  match index_of "Status" (headersOf ws), index_of "Last Updated By" (headersOf ws) with
  | some si, some li =>
    let ws1 := update_cell ws (row_idx + 2) (si + 1) status
    let ws2 := update_cell ws1 (row_idx + 2) (li + 1) actor
    (ws2, none, true)
  | _, _ => (ws, cache, false)

/-- The "Add to Calendar" button branch of main (src/main.py lines
613-620): the calendar adapter outcome is the Bool parameter; only on
success is update_submission_status called with status
"Added to Calendar". Returns the worksheet, the cache, and whether a
status write happened and succeeded. -/
def add_to_calendar_action (calendar_ok : Bool) (ws : Worksheet)
    (cache : Option DF) (row_idx : Nat) (actor : String) :
    Worksheet × Option DF × Bool :=
  if calendar_ok then
    update_submission_status ws cache row_idx "Added to Calendar" actor
  else
    (ws, cache, false)

/-- get_authorized_users of src/main.py lines 169-201 with the remote
read made explicit: the argument is the outcome of reading the
Authorized Users worksheet, a list of the Email cells of its records
(none when a record lacks the Email column, as dict.get yields None).
Any exception is caught and the empty set returned. Set semantics are
carried by list membership. -/
def get_authorized_users
    (fetch : Except String (List (Option String))) : List (Option String) :=
  match fetch with
  | Except.ok records => records
  | Except.error _ => []

/-- The authorization gate of main (src/main.py lines 550-555): the
reviewer proceeds iff their email is a member of the retrieved set. -/
def authorization_allows (userEmail : String)
    (fetch : Except String (List (Option String))) : Bool :=
  (get_authorized_users fetch).contains (some userEmail)

/-- days in the proleptic-Gregorian years before year y
(Python datetime internal helper). -/
def days_before_year (y : Nat) : Nat :=
  let n := y - 1
  365 * n + n / 4 - n / 100 + n / 400

/-- Gregorian leap-year rule. -/
def is_leap (y : Nat) : Bool :=
  y % 4 == 0 && (y % 100 != 0 || y % 400 == 0)

/-- Cumulative day counts before each month in a non-leap year. -/
def DAYS_BEFORE_MONTH : List Nat :=
  [0, 31, 59, 90, 120, 151, 181, 212, 243, 273, 304, 334]

/-- days in year y before the first of month m. -/
def days_before_month (y m : Nat) : Nat :=
  DAYS_BEFORE_MONTH.getD (m - 1) 0 + (if 2 < m && is_leap y then 1 else 0)

/-- Python date.toordinal(): day number of the date counting from
0001-01-01 as day 1. -/
def toordinal (d : CalDate) : Nat :=
  days_before_year d.year + days_before_month d.year d.month + d.day

/-- Python date.weekday(): 0 for Monday through 6 for Sunday.
0001-01-01, ordinal 1, was a Monday. -/
def pyWeekday (d : CalDate) : Nat := (toordinal d + 6) % 7

/-- The fixed ordered weekday codes, Monday first. -/
def WEEKDAY_CODES : List String :=
  ["MO", "TU", "WE", "TH", "FR", "SA", "SU"]

/-- Modelled from the spec: the recurrence code function monthly_byday
is imported from main by src/tests/test_monthly_byday.py but absent
from src/main.py. Per spec section 4.1 it maps a date to the token for
"the Nth occurrence of weekday W within its month", with
ordinal = (day_of_month - 1) / 7 + 1 and the two-letter weekday code
taken from the fixed ordered set MO TU WE TH FR SA SU indexed by the
weekday (Monday = 0), embedded in a distinctly terminated label; the
test pins the label down as "BYDAY=" ++ ordinal ++ code ++ ";". -/
def monthly_byday (d : CalDate) : String :=
  let ordinal := (d.day - 1) / 7 + 1
  "BYDAY=" ++ toString ordinal ++ WEEKDAY_CODES.getD (pyWeekday d) "" ++ ";"

/-- A representative submission after editing: all required fields
nonempty, both dates equal, no times, a well-formed email. -/
def sampleBase : EventData :=
  { eventName := "Picnic", description := "Fun", eventDate := ⟨2025, 8, 23⟩,
    endDate := ⟨2025, 8, 23⟩, startTime := none, endTime := none,
    location := "Park", eventType := "Social", orgName := "Club",
    phone := "", fee := "Free", email := "a@b.co" }

/-- A multi-day submission with a start time but no end time. -/
def cexMultiDay : EventData :=
  { sampleBase with endDate := ⟨2025, 8, 24⟩, startTime := some ⟨10, 0⟩ }

/-- A same-day submission with both times set in order. -/
def sampleTimed : EventData :=
  { sampleBase with startTime := some ⟨10, 0⟩, endTime := some ⟨11, 30⟩ }

/-- A concrete worksheet: header row plus one pending data row. -/
def wsEx : Worksheet :=
  [["Event Name", "Status", "Last Updated By"], ["Picnic", "", ""]]

/-- A same-day submission with an end time but no start time. -/
def cexOnlyEnd : EventData := { sampleBase with endTime := some ⟨11, 0⟩ }

/-- A same-day submission whose end time precedes its start time. -/
def cexBadOrder : EventData :=
  { sampleBase with startTime := some ⟨12, 0⟩, endTime := some ⟨11, 0⟩ }

/-- A submission whose location is empty. -/
def cexNoLocation : EventData := { sampleBase with location := "" }

/-- A submission whose end date precedes its event date. -/
def cexBadDates : EventData := { sampleBase with endDate := ⟨2025, 8, 22⟩ }

/-- A submission with a malformed email value. -/
def cexBadEmail : EventData := { sampleBase with email := "not-an-email" }

theorem list_isEmpty_false_of_mem {α : Type} {a : α} {l : List α}
    (h : a ∈ l) : l.isEmpty = false := by
  cases l <;> simp_all

theorem validate_errors_def (m : EventData) :
    (validate_event_data m).errors =
      requiredFieldErrors m ++ (dateTimeChecks m).1 ++ emailCheck m := rfl

theorem validate_ok_false_of_mem {m : EventData} {v : VMsg}
    (h : v ∈ (validate_event_data m).errors) :
    (validate_event_data m).ok = false :=
  list_isEmpty_false_of_mem h

theorem dateLt_irrefl (d : CalDate) : dateLt d d = false := by
  simp [dateLt]

theorem not_mem_requiredFieldErrors {m : EventData} {v : VMsg}
    (h : ∀ f, v ≠ VMsg.requiredEmpty f) : v ∉ requiredFieldErrors m := by
  intro hmem
  simp only [requiredFieldErrors, List.mem_map] at hmem
  obtain ⟨f, _, hf⟩ := hmem
  exact h f hf.symm

theorem not_mem_emailCheck {m : EventData} {v : VMsg}
    (h : ∀ s, v ≠ VMsg.invalidEmail s) : v ∉ emailCheck m := by
  intro hmem
  unfold emailCheck at hmem
  split at hmem
  · simp at hmem
  · simp only [List.mem_singleton] at hmem
    exact h _ hmem

theorem dateTimeChecks_cases (m : EventData) :
    (dateTimeChecks m).1 = [] ∨
    (dateTimeChecks m).1 = [VMsg.endDateBeforeEventDate] ∨
    (dateTimeChecks m).1 = [VMsg.startTimeMissing] ∨
    (dateTimeChecks m).1 = [VMsg.endTimeMissing] ∨
    (dateTimeChecks m).1 = [VMsg.endTimeBeforeStartTime] := by
  unfold dateTimeChecks
  split
  · simp
  · split
    · split <;> simp
    · split
      · split
        · simp
        · simp
        · split <;> simp
      · simp

theorem not_mem_dateTimeChecks {m : EventData} {v : VMsg}
    (h1 : v ≠ VMsg.endDateBeforeEventDate) (h2 : v ≠ VMsg.startTimeMissing)
    (h3 : v ≠ VMsg.endTimeMissing) (h4 : v ≠ VMsg.endTimeBeforeStartTime) :
    v ∉ (dateTimeChecks m).1 := by
  rcases dateTimeChecks_cases m with h | h | h | h | h <;> rw [h] <;>
    simp_all

theorem mem_errors_of_mem_dateTimeChecks {m : EventData} {v : VMsg}
    (h : v ∈ (dateTimeChecks m).1) : v ∈ (validate_event_data m).errors := by
  rw [validate_errors_def]
  simp [List.mem_append, h]

theorem mem_errors_of_mem_emailCheck {m : EventData} {v : VMsg}
    (h : v ∈ emailCheck m) : v ∈ (validate_event_data m).errors := by
  rw [validate_errors_def]
  simp [List.mem_append, h]

theorem mem_errors_of_mem_required {m : EventData} {v : VMsg}
    (h : v ∈ requiredFieldErrors m) : v ∈ (validate_event_data m).errors := by
  rw [validate_errors_def]
  simp [List.mem_append, h]

theorem requiredFieldErrors_eq_nil {m : EventData}
    (hall : ∀ g ∈ REQUIRED_FIELDS, fieldTruthy m g = true) :
    requiredFieldErrors m = [] := by
  unfold requiredFieldErrors
  have hfil : REQUIRED_FIELDS.filter (fun f => !fieldTruthy m f) = [] := by
    rw [List.filter_eq_nil_iff]
    intro a ha
    simp [hall a ha]
  rw [hfil]
  rfl

theorem no_time_errors_of_dateTimeChecks_nil {m : EventData}
    (hdt : (dateTimeChecks m).1 = []) :
    VMsg.startTimeMissing ∉ (validate_event_data m).errors ∧
    VMsg.endTimeMissing ∉ (validate_event_data m).errors ∧
    VMsg.endTimeBeforeStartTime ∉ (validate_event_data m).errors ∧
    VMsg.endDateBeforeEventDate ∉ (validate_event_data m).errors := by
  refine ⟨?_, ?_, ?_, ?_⟩
  all_goals
    rw [validate_errors_def, hdt]
    intro hmem
    rcases List.mem_append.mp hmem with h1 | h2
    case _ =>
      rcases List.mem_append.mp h1 with ha | hb
      · exact not_mem_requiredFieldErrors (fun f => by simp) ha
      · simp at hb
    case _ => exact not_mem_emailCheck (fun s => by simp) h2

/-- C1: monthly_byday is a total function mapping any calendar date to
the recurrence token built from ordinal = (day - 1) / 7 + 1 and the
two-letter weekday code of the fixed list MO TU WE TH FR SA SU indexed
by the weekday with Monday = 0; the four vectors of
src/tests/test_monthly_byday.py evaluate as the test expects. -/
theorem c1_monthly_byday_formula :
    (∀ d : CalDate, monthly_byday d =
        "BYDAY=" ++ toString ((d.day - 1) / 7 + 1) ++
          WEEKDAY_CODES.getD (pyWeekday d) "" ++ ";") ∧
    monthly_byday ⟨2025, 8, 23⟩ = "BYDAY=4SA;" ∧
    monthly_byday ⟨2025, 1, 6⟩ = "BYDAY=1MO;" ∧
    monthly_byday ⟨2025, 3, 18⟩ = "BYDAY=3TU;" ∧
    monthly_byday ⟨2025, 11, 30⟩ = "BYDAY=5SU;" :=
  ⟨fun _ => rfl, by decide, by decide, by decide, by decide⟩

/-- C2 counterexample: a submission with end date strictly after event
date, a start time and no end time passes validation with no error at
all (only the multi-day warning), so the claim "regardless of the
relation between event date and end date" fails on the code. -/
theorem c2_counterexample :
    cexMultiDay.startTime = some ⟨10, 0⟩ ∧ cexMultiDay.endTime = none ∧
    dateLt cexMultiDay.eventDate cexMultiDay.endDate = true ∧
    (validate_event_data cexMultiDay).ok = true ∧
    (validate_event_data cexMultiDay).errors = [] := by decide

/-- C2 (amended): when the end date equals the event date, a submission
with exactly one of start time and end time set is rejected by the
validator. -/
theorem c2_time_pairing_blocks (m : EventData)
    (hdate : m.endDate = m.eventDate)
    (hone : (m.startTime = none ∧ m.endTime ≠ none) ∨
            (m.startTime ≠ none ∧ m.endTime = none)) :
    (validate_event_data m).ok = false := by
  rcases hone with ⟨hs, he⟩ | ⟨hs, he⟩
  · obtain ⟨e, he⟩ := Option.ne_none_iff_exists'.mp he
    have hdt : (dateTimeChecks m).1 = [VMsg.startTimeMissing] := by
      simp [dateTimeChecks, hdate, dateLt_irrefl, hs, he]
    have hmem : VMsg.startTimeMissing ∈ (validate_event_data m).errors :=
      mem_errors_of_mem_dateTimeChecks (by rw [hdt]; simp)
    exact validate_ok_false_of_mem hmem
  · obtain ⟨t, hs⟩ := Option.ne_none_iff_exists'.mp hs
    have hdt : (dateTimeChecks m).1 = [VMsg.endTimeMissing] := by
      simp [dateTimeChecks, hdate, dateLt_irrefl, hs, he]
    have hmem : VMsg.endTimeMissing ∈ (validate_event_data m).errors :=
      mem_errors_of_mem_dateTimeChecks (by rw [hdt]; simp)
    exact validate_ok_false_of_mem hmem

/-- Witness for c2_time_pairing_blocks at a concrete submission. -/
theorem c2_time_pairing_blocks_witness :
    cexOnlyEnd.endDate = cexOnlyEnd.eventDate ∧
    (cexOnlyEnd.startTime = none ∧ cexOnlyEnd.endTime ≠ none) ∧
    (validate_event_data cexOnlyEnd).ok = false :=
  ⟨by decide, ⟨by decide, by decide⟩,
   c2_time_pairing_blocks cexOnlyEnd (by decide)
     (Or.inl ⟨by decide, by decide⟩)⟩

/-- C3: when the calendar adapter call reports failure, the
"Add to Calendar" branch of main performs no status write: the
worksheet and the cache are exactly what they were. -/
theorem c3_no_status_write_on_calendar_failure
    (calendar_ok : Bool) (ws : Worksheet) (cache : Option DF)
    (row_idx : Nat) (actor : String) (hfail : calendar_ok = false) :
    add_to_calendar_action calendar_ok ws cache row_idx actor =
      (ws, cache, false) := by
  subst hfail
  rfl

/-- Witness for c3_no_status_write_on_calendar_failure at a concrete
store state. -/
theorem c3_no_status_write_witness :
    (false = false) ∧
    add_to_calendar_action false wsEx (some [(0, [("Event Name", "Old")])])
        0 "alice" =
      (wsEx, some [(0, [("Event Name", "Old")])], false) :=
  ⟨rfl, c3_no_status_write_on_calendar_failure false wsEx
    (some [(0, [("Event Name", "Old")])]) 0 "alice" rfl⟩

/-- C5 counterexample: a submission the validator accepts (multi-day,
start time set, end time absent) on which add_event_to_calendar does
not build any event: it raises before the insert call, because the
code applies isoformat to the absent end time. -/
theorem c5_counterexample :
    (validate_event_data cexMultiDay).ok = true ∧
    cexMultiDay.startTime.isSome = true ∧
    build_calendar_event cexMultiDay = none := by decide

/-- C5 (amended): for a validated submission whose end time is present
whenever its start time is, the adapter builds a date-only event over
event date and end date when start time is absent, and otherwise a
timed event concatenating date, "T" and time for both endpoints,
tagged with the fixed America/Chicago time zone. -/
theorem c5_event_construction (m : EventData)
    (_hvalid : (validate_event_data m).ok = true) :
    (m.startTime = none →
      build_calendar_event m = some
        { summary := m.eventName, location := m.location,
          description := format_description m,
          start := GDateSpec.date m.eventDate.isoformat,
          stop := GDateSpec.date m.endDate.isoformat }) ∧
    (∀ t e, m.startTime = some t → m.endTime = some e →
      build_calendar_event m = some
        { summary := m.eventName, location := m.location,
          description := format_description m,
          start := GDateSpec.dateTime
            (m.eventDate.isoformat ++ "T" ++ t.isoformat) "America/Chicago",
          stop := GDateSpec.dateTime
            (m.endDate.isoformat ++ "T" ++ e.isoformat) "America/Chicago" }) := by
  refine ⟨fun h => ?_, fun t e ht he => ?_⟩
  · simp [build_calendar_event, h]
  · simp [build_calendar_event, ht, he]

/-- Witness for c5_event_construction: the date-only and the timed
shape, each at a concrete validated submission. -/
theorem c5_event_construction_witness :
    (validate_event_data sampleBase).ok = true ∧
    build_calendar_event sampleBase = some
      { summary := "Picnic", location := "Park",
        description := format_description sampleBase,
        start := GDateSpec.date "2025-08-23",
        stop := GDateSpec.date "2025-08-23" } ∧
    (validate_event_data sampleTimed).ok = true ∧
    build_calendar_event sampleTimed = some
      { summary := "Picnic", location := "Park",
        description := format_description sampleTimed,
        start := GDateSpec.dateTime "2025-08-23T10:00:00" "America/Chicago",
        stop := GDateSpec.dateTime "2025-08-23T11:30:00" "America/Chicago" } :=
  ⟨by decide, (c5_event_construction sampleBase (by decide)).1 rfl,
   by decide,
   (c5_event_construction sampleTimed (by decide)).2 ⟨10, 0⟩ ⟨11, 30⟩ rfl rfl⟩

/-- C6: with end date equal to event date and at least one time set,
the validator blocks a lone end time naming the missing start time,
blocks a lone start time naming the missing end time, blocks an end
time earlier than the start time, and otherwise emits no time-related
blocking error. -/
theorem c6_equal_dates_time_rules (m : EventData)
    (hdate : m.endDate = m.eventDate) :
    (∀ e, m.startTime = none → m.endTime = some e →
      VMsg.startTimeMissing ∈ (validate_event_data m).errors ∧
      (validate_event_data m).ok = false) ∧
    (∀ t, m.startTime = some t → m.endTime = none →
      VMsg.endTimeMissing ∈ (validate_event_data m).errors ∧
      (validate_event_data m).ok = false) ∧
    (∀ t e, m.startTime = some t → m.endTime = some e → timeLt e t = true →
      VMsg.endTimeBeforeStartTime ∈ (validate_event_data m).errors ∧
      (validate_event_data m).ok = false) ∧
    (∀ t e, m.startTime = some t → m.endTime = some e → timeLt e t = false →
      VMsg.startTimeMissing ∉ (validate_event_data m).errors ∧
      VMsg.endTimeMissing ∉ (validate_event_data m).errors ∧
      VMsg.endTimeBeforeStartTime ∉ (validate_event_data m).errors) := by
  refine ⟨fun e hs he => ?_, fun t hs he => ?_,
    fun t e hs he hlt => ?_, fun t e hs he hlt => ?_⟩
  · have hdt : (dateTimeChecks m).1 = [VMsg.startTimeMissing] := by
      simp [dateTimeChecks, hdate, dateLt_irrefl, hs, he]
    have hmem : VMsg.startTimeMissing ∈ (validate_event_data m).errors :=
      mem_errors_of_mem_dateTimeChecks (by rw [hdt]; simp)
    exact ⟨hmem, validate_ok_false_of_mem hmem⟩
  · have hdt : (dateTimeChecks m).1 = [VMsg.endTimeMissing] := by
      simp [dateTimeChecks, hdate, dateLt_irrefl, hs, he]
    have hmem : VMsg.endTimeMissing ∈ (validate_event_data m).errors :=
      mem_errors_of_mem_dateTimeChecks (by rw [hdt]; simp)
    exact ⟨hmem, validate_ok_false_of_mem hmem⟩
  · have hdt : (dateTimeChecks m).1 = [VMsg.endTimeBeforeStartTime] := by
      simp [dateTimeChecks, hdate, dateLt_irrefl, hs, he, hlt]
    have hmem : VMsg.endTimeBeforeStartTime ∈ (validate_event_data m).errors :=
      mem_errors_of_mem_dateTimeChecks (by rw [hdt]; simp)
    exact ⟨hmem, validate_ok_false_of_mem hmem⟩
  · have hdt : (dateTimeChecks m).1 = [] := by
      simp [dateTimeChecks, hdate, dateLt_irrefl, hs, he, hlt]
    have hno := no_time_errors_of_dateTimeChecks_nil hdt
    exact ⟨hno.1, hno.2.1, hno.2.2.1⟩

/-- Witness for c6_equal_dates_time_rules: a well-ordered pair of times
yields no time error, and a reversed pair is rejected. -/
theorem c6_equal_dates_time_rules_witness :
    sampleTimed.endDate = sampleTimed.eventDate ∧
    (VMsg.startTimeMissing ∉ (validate_event_data sampleTimed).errors ∧
     VMsg.endTimeMissing ∉ (validate_event_data sampleTimed).errors ∧
     VMsg.endTimeBeforeStartTime ∉ (validate_event_data sampleTimed).errors) ∧
    (validate_event_data cexBadOrder).ok = false :=
  ⟨by decide,
   (c6_equal_dates_time_rules sampleTimed (by decide)).2.2.2
     ⟨10, 0⟩ ⟨11, 30⟩ rfl rfl (by decide),
   ((c6_equal_dates_time_rules cexBadOrder (by decide)).2.2.1
     ⟨12, 0⟩ ⟨11, 0⟩ rfl rfl (by decide)).2⟩

/-- C7: every empty (falsy) field of the required list yields a
blocking error naming that field and makes the validator return False,
and when every required field is truthy no required-field error is
emitted at all. -/
theorem c7_required_fields (m : EventData) (f : FieldKey)
    (hf : f ∈ REQUIRED_FIELDS) :
    (fieldTruthy m f = false →
      VMsg.requiredEmpty f ∈ (validate_event_data m).errors ∧
      (validate_event_data m).ok = false) ∧
    ((∀ g ∈ REQUIRED_FIELDS, fieldTruthy m g = true) →
      ∀ g, VMsg.requiredEmpty g ∉ (validate_event_data m).errors) := by
  constructor
  · intro hempty
    have hmem : VMsg.requiredEmpty f ∈ requiredFieldErrors m := by
      unfold requiredFieldErrors
      exact List.mem_map_of_mem _ (List.mem_filter.mpr ⟨hf, by simp [hempty]⟩)
    have hmem2 := mem_errors_of_mem_required hmem
    exact ⟨hmem2, validate_ok_false_of_mem hmem2⟩
  · intro hall g
    rw [validate_errors_def, requiredFieldErrors_eq_nil hall]
    intro hmem
    simp only [List.nil_append] at hmem
    rcases List.mem_append.mp hmem with h1 | h2
    · exact not_mem_dateTimeChecks (by simp) (by simp) (by simp) (by simp) h1
    · exact not_mem_emailCheck (fun s => by simp) h2

/-- Witness for c7_required_fields: an empty location is rejected by
name, and a fully filled submission carries no required-field error. -/
theorem c7_required_fields_witness :
    FieldKey.location ∈ REQUIRED_FIELDS ∧
    fieldTruthy cexNoLocation FieldKey.location = false ∧
    (VMsg.requiredEmpty FieldKey.location ∈
        (validate_event_data cexNoLocation).errors ∧
      (validate_event_data cexNoLocation).ok = false) ∧
    (∀ g, VMsg.requiredEmpty g ∉ (validate_event_data sampleBase).errors) :=
  ⟨by decide, by decide,
   (c7_required_fields cexNoLocation FieldKey.location (by decide)).1
     (by decide),
   (c7_required_fields sampleBase FieldKey.location (by decide)).2
     (by decide)⟩

/-- C8: an end date strictly before the event date is a blocking
error, while equal dates with no times set produce neither the
date-ordering error nor any time-related error. -/
theorem c8_date_ordering (m : EventData) :
    (dateLt m.endDate m.eventDate = true →
      VMsg.endDateBeforeEventDate ∈ (validate_event_data m).errors ∧
      (validate_event_data m).ok = false) ∧
    (m.endDate = m.eventDate → m.startTime = none → m.endTime = none →
      VMsg.endDateBeforeEventDate ∉ (validate_event_data m).errors ∧
      VMsg.startTimeMissing ∉ (validate_event_data m).errors ∧
      VMsg.endTimeMissing ∉ (validate_event_data m).errors ∧
      VMsg.endTimeBeforeStartTime ∉ (validate_event_data m).errors) := by
  constructor
  · intro hlt
    have hdt : (dateTimeChecks m).1 = [VMsg.endDateBeforeEventDate] := by
      simp [dateTimeChecks, hlt]
    have hmem : VMsg.endDateBeforeEventDate ∈ (validate_event_data m).errors :=
      mem_errors_of_mem_dateTimeChecks (by rw [hdt]; simp)
    exact ⟨hmem, validate_ok_false_of_mem hmem⟩
  · intro hdate hs he
    have hdt : (dateTimeChecks m).1 = [] := by
      simp [dateTimeChecks, hdate, dateLt_irrefl, hs, he]
    have hno := no_time_errors_of_dateTimeChecks_nil hdt
    exact ⟨hno.2.2.2, hno.1, hno.2.1, hno.2.2.1⟩

/-- Witness for c8_date_ordering: reversed dates are rejected, equal
dates with no times carry no date-ordering error. -/
theorem c8_date_ordering_witness :
    dateLt cexBadDates.endDate cexBadDates.eventDate = true ∧
    (validate_event_data cexBadDates).ok = false ∧
    VMsg.endDateBeforeEventDate ∉ (validate_event_data sampleBase).errors :=
  ⟨by decide, ((c8_date_ordering cexBadDates).1 (by decide)).2,
   ((c8_date_ordering sampleBase).2 rfl rfl rfl).1⟩

/-- C9: an email value not matching the anchored
local-part at-sign domain dot tld pattern yields a blocking error
carrying the offending value and a False result, a matching value
yields no email error; "a@b.co" matches and "not-an-email" does not. -/
theorem c9_email_validation :
    (∀ m : EventData,
      (re_email_match m.email = false →
        VMsg.invalidEmail m.email ∈ (validate_event_data m).errors ∧
        (validate_event_data m).ok = false) ∧
      (re_email_match m.email = true →
        ∀ v, VMsg.invalidEmail v ∉ (validate_event_data m).errors)) ∧
    re_email_match "a@b.co" = true ∧
    re_email_match "not-an-email" = false := by
  refine ⟨fun m => ⟨fun hbad => ?_, fun hgood v => ?_⟩, by decide, by decide⟩
  · have hmail : emailCheck m = [VMsg.invalidEmail m.email] := by
      simp [emailCheck, hbad]
    have hmem : VMsg.invalidEmail m.email ∈ (validate_event_data m).errors :=
      mem_errors_of_mem_emailCheck (by rw [hmail]; simp)
    exact ⟨hmem, validate_ok_false_of_mem hmem⟩
  · have hmail : emailCheck m = [] := by simp [emailCheck, hgood]
    rw [validate_errors_def, hmail]
    intro hmem
    simp only [List.append_nil] at hmem
    rcases List.mem_append.mp hmem with h1 | h2
    · exact not_mem_requiredFieldErrors (fun f => by simp) h1
    · exact not_mem_dateTimeChecks (by simp) (by simp) (by simp) (by simp) h2

/-- Witness for c9_email_validation at concrete submissions. -/
theorem c9_email_validation_witness :
    re_email_match cexBadEmail.email = false ∧
    (VMsg.invalidEmail "not-an-email" ∈
        (validate_event_data cexBadEmail).errors ∧
      (validate_event_data cexBadEmail).ok = false) ∧
    (∀ v, VMsg.invalidEmail v ∉ (validate_event_data sampleBase).errors) :=
  ⟨by decide, (c9_email_validation.1 cexBadEmail).1 (by decide),
   (c9_email_validation.1 sampleBase).2 (by decide)⟩

/-- C10: when the read of the Authorized Users worksheet fails,
get_authorized_users returns the empty set, so the authorization gate
rejects every user email; on a successful read the gate is exactly
membership in the retrieved set. -/
theorem c10_auth_fails_closed_on_read_error :
    (∀ err : String, get_authorized_users (Except.error err) = []) ∧
    (∀ (userEmail err : String),
      authorization_allows userEmail (Except.error err) = false) ∧
    (∀ (userEmail : String) (records : List (Option String)),
      authorization_allows userEmail (Except.ok records) =
        records.contains (some userEmail)) :=
  ⟨fun _ => rfl, fun _ _ => rfl, fun _ _ => rfl⟩

theorem headersOf_cons (h : List String) (t : Worksheet) :
    headersOf (h :: t) = h := rfl

theorem list_isEmpty_false_of_length_pos {α : Type} {l : List α}
    (h : 0 < l.length) : l.isEmpty = false := by
  cases l
  · simp at h
  · rfl

theorem setAt_length {α : Type} (f : α → α) :
    ∀ (l : List α) (i : Nat), (setAt l i f).length = l.length := by
  intro l
  induction l with
  | nil => intro i; rfl
  | cons x xs ih =>
    intro i
    cases i with
    | zero => simp [setAt]
    | succ n => simp [setAt, ih n]

theorem setAt_get?_eq {α : Type} (f : α → α) :
    ∀ (l : List α) (i : Nat), (setAt l i f).get? i = (l.get? i).map f := by
  intro l
  induction l with
  | nil => intro i; rfl
  | cons x xs ih =>
    intro i
    cases i with
    | zero => rfl
    | succ n => simpa [setAt] using ih n

theorem setAt_get?_ne {α : Type} (f : α → α) :
    ∀ (l : List α) (i j : Nat), i ≠ j → (setAt l i f).get? j = l.get? j := by
  intro l
  induction l with
  | nil => intro i j _; rfl
  | cons x xs ih =>
    intro i j hne
    cases i with
    | zero =>
      cases j with
      | zero => exact absurd rfl hne
      | succ m => simp [setAt]
    | succ n =>
      cases j with
      | zero => rfl
      | succ m =>
        simp only [setAt, List.get?_cons_succ]
        exact ih n m (fun h2 => hne (by rw [h2]))

theorem index_of_get? (k : String) :
    ∀ (l : List String) (i : Nat), index_of k l = some i →
      l.get? i = some k := by
  intro l
  induction l with
  | nil => intro i h; simp [index_of] at h
  | cons x xs ih =>
    intro i h
    simp only [index_of] at h
    split at h
    case _ hx =>
      injection h with h0
      subst h0
      have hxk : x = k := by simpa using hx
      simp [hxk]
    case _ hx =>
      cases hmo : index_of k xs with
      | none => rw [hmo] at h; simp at h
      | some j =>
        rw [hmo] at h
        simp only [Option.map_some'] at h
        injection h with h1
        subst h1
        simp only [List.get?_cons_succ]
        exact ih j hmo

theorem lookup_zip (k : String) :
    ∀ (hs row : List String) (i : Nat), index_of k hs = some i →
      i < row.length → (hs.zip row).lookup k = row.get? i := by
  intro hs
  induction hs with
  | nil => intro row i h _; simp [index_of] at h
  | cons x xs ih =>
    intro row i h hlen
    cases row with
    | nil => simp at hlen
    | cons r rs =>
      simp only [index_of] at h
      split at h
      case _ hx =>
        injection h with h0
        subst h0
        have hk : (k == x) = true := by
          have hxk : x = k := by simpa using hx
          simp [hxk]
        simp [List.zip_cons_cons, List.lookup, hk]
      case _ hx =>
        cases hmo : index_of k xs with
        | none => rw [hmo] at h; simp at h
        | some j =>
          rw [hmo] at h
          simp only [Option.map_some'] at h
          injection h with h1
          subst h1
          have hk : (k == x) = false := by
            have hxk : ¬x = k := by simpa using hx
            simp [Ne.symm hxk]
          simp only [List.zip_cons_cons, List.lookup, hk,
            List.get?_cons_succ]
          exact ih rs j hmo (by simpa using hlen)

theorem mem_indexedFrom {α : Type} :
    ∀ (l : List α) (n i : Nat) (a : α),
      (i, a) ∈ indexedFrom n l ↔ n ≤ i ∧ l.get? (i - n) = some a := by
  intro l
  induction l with
  | nil => intro n i a; simp [indexedFrom]
  | cons x xs ih =>
    intro n i a
    simp only [indexedFrom, List.mem_cons, ih, Prod.mk.injEq]
    constructor
    · rintro (⟨rfl, rfl⟩ | ⟨hle, hget⟩)
      · refine ⟨Nat.le_refl i, ?_⟩
        have h0 : i - i = 0 := by omega
        rw [h0]
        rfl
      · refine ⟨by omega, ?_⟩
        have h1 : i - n = (i - (n + 1)) + 1 := by omega
        rw [h1, List.get?_cons_succ]
        exact hget
    · rintro ⟨hle, hget⟩
      by_cases hin : i = n
      · subst hin
        left
        have h0 : i - i = 0 := by omega
        rw [h0] at hget
        refine ⟨rfl, ?_⟩
        have : some x = some a := hget
        injection this with h2
        exact h2.symm
      · right
        refine ⟨by omega, ?_⟩
        have h1 : i - n = (i - (n + 1)) + 1 := by omega
        rw [h1, List.get?_cons_succ] at hget
        exact hget

theorem mem_indexed {α : Type} (l : List α) (i : Nat) (a : α) :
    (i, a) ∈ indexed l ↔ l.get? i = some a := by
  unfold indexed
  rw [mem_indexedFrom]
  simp

theorem mem_dfOf (ws : Worksheet) (i : Nat) (r : List (String × String)) :
    (i, r) ∈ dfOf ws ↔
      ∃ row, ws.tail.get? i = some row ∧
        is_terminal (statusOf (recordOf (headersOf ws) row)) = false ∧
        r = dropStatusCols (recordOf (headersOf ws) row) := by
  unfold dfOf
  constructor
  · intro hmem
    obtain ⟨p, hp, heq⟩ := List.mem_map.mp hmem
    obtain ⟨hpm, hflt⟩ := List.mem_filter.mp hp
    obtain ⟨i2, row⟩ := p
    simp only [Prod.mk.injEq] at heq
    obtain ⟨rfl, hr⟩ := heq
    refine ⟨row, (mem_indexed ws.tail i2 row).mp hpm, ?_, hr.symm⟩
    simpa using hflt
  · rintro ⟨row, hget, hterm, rfl⟩
    apply List.mem_map.mpr
    refine ⟨(i, row), List.mem_filter.mpr
      ⟨(mem_indexed ws.tail i row).mpr hget, ?_⟩, rfl⟩
    simp [hterm]

/-- C4: a successful update_submission_status writes the new status
into the Status cell of sheet row row_idx + 2, clears the whole read
cache, and the immediately following load_spreadsheet_data therefore
recomputes its DataFrame from the updated sheet: the updated row
appears in the result exactly when the new status is not terminal, so
no returned row can still reflect the pre-update status. -/
theorem c4_update_invalidates_cache
    (ws : Worksheet) (cache : Option DF) (row_idx : Nat)
    (status actor : String)
    (hrect : ∀ r ∈ ws, r.length = (headersOf ws).length)
    (hrow : row_idx + 1 < ws.length)
    (hok : (update_submission_status ws cache row_idx status actor).2.2
      = true) :
    (update_submission_status ws cache row_idx status actor).2.1 = none ∧
    (∃ row2,
      (update_submission_status ws cache row_idx status
          actor).1.tail.get? row_idx = some row2 ∧
      statusOf (recordOf
        (headersOf (update_submission_status ws cache row_idx status
          actor).1) row2) = status) ∧
    (load_spreadsheet_data
        (update_submission_status ws cache row_idx status actor).1
        (update_submission_status ws cache row_idx status actor).2.1).1 =
      some (dfOf (update_submission_status ws cache row_idx status
        actor).1) ∧
    ((∃ r, (row_idx, r) ∈ dfOf (update_submission_status ws cache row_idx
        status actor).1) ↔ is_terminal status = false) := by
  cases ws with
  | nil => simp at hrow
  | cons h0 t0 =>
  cases hsi : index_of "Status" (headersOf (h0 :: t0)) with
  | none =>
    exfalso
    unfold update_submission_status at hok
    rw [hsi] at hok
    simp at hok
  | some si =>
  cases hli : index_of "Last Updated By" (headersOf (h0 :: t0)) with
  | none =>
    exfalso
    unfold update_submission_status at hok
    rw [hsi, hli] at hok
    simp at hok
  | some li =>
  have hupd : update_submission_status (h0 :: t0) cache row_idx status
      actor =
      (h0 :: setAt (setAt t0 row_idx
          (fun row => setAt row si (fun _ => status)))
        row_idx (fun row => setAt row li (fun _ => actor)), none, true) := by
    unfold update_submission_status
    rw [hsi, hli]
    rfl
  have hsi0 : index_of "Status" h0 = some si := hsi
  have hli0 : index_of "Last Updated By" h0 = some li := hli
  have hgets : h0.get? si = some "Status" := index_of_get? "Status" h0 si hsi0
  have hgetl : h0.get? li = some "Last Updated By" :=
    index_of_get? "Last Updated By" h0 li hli0
  have hsne : li ≠ si := by
    intro h
    rw [h] at hgetl
    have hcontra := hgets.symm.trans hgetl
    simp at hcontra
  obtain ⟨hsilt, -⟩ := List.get?_eq_some.mp hgets
  have hrow2 : row_idx < t0.length := by
    simp only [List.length_cons] at hrow
    omega
  obtain ⟨r0, hr0⟩ : ∃ r0, t0.get? row_idx = some r0 := by
    cases hg : t0.get? row_idx with
    | none =>
      rw [List.get?_eq_none] at hg
      omega
    | some r0 => exact ⟨r0, rfl⟩
  have hr0mem : r0 ∈ (h0 :: t0) :=
    List.mem_cons_of_mem h0 (List.get?_mem hr0)
  have hr0len : r0.length = h0.length := hrect r0 hr0mem
  have hget2 : (setAt (setAt t0 row_idx
      (fun row => setAt row si (fun _ => status)))
        row_idx (fun row => setAt row li (fun _ => actor))).get? row_idx =
      some (setAt (setAt r0 si (fun _ => status)) li (fun _ => actor)) := by
    rw [setAt_get?_eq, setAt_get?_eq, hr0]
    rfl
  have hrow2len : (setAt (setAt r0 si (fun _ => status)) li
      (fun _ => actor)).length = h0.length := by
    rw [setAt_length, setAt_length, hr0len]
  have hget2si : (setAt (setAt r0 si (fun _ => status)) li
      (fun _ => actor)).get? si = some status := by
    rw [setAt_get?_ne _ _ li si hsne, setAt_get?_eq]
    obtain ⟨v, hv⟩ : ∃ v, r0.get? si = some v := by
      cases hg : r0.get? si with
      | none =>
        rw [List.get?_eq_none] at hg
        omega
      | some v => exact ⟨v, rfl⟩
    rw [hv]
    rfl
  have hstat : statusOf (recordOf h0 (setAt (setAt r0 si (fun _ => status))
      li (fun _ => actor))) = status := by
    unfold statusOf recordOf
    rw [lookup_zip "Status" h0 _ si hsi0 (by rw [hrow2len]; exact hsilt),
      hget2si]
    rfl
  rw [hupd]
  refine ⟨rfl,
    ⟨setAt (setAt r0 si (fun _ => status)) li (fun _ => actor), hget2,
      hstat⟩, ?_, ?_⟩
  · have hne2 : (setAt (setAt t0 row_idx
        (fun row => setAt row si (fun _ => status)))
          row_idx (fun row => setAt row li (fun _ => actor))).isEmpty
        = false := by
      apply list_isEmpty_false_of_length_pos
      rw [setAt_length, setAt_length]
      omega
    show (load_spreadsheet_data _ none).1 = _
    unfold load_spreadsheet_data
    simp only [List.tail_cons, headersOf_cons, hne2, Bool.false_eq_true,
      if_false]
    rw [hsi0]
  · constructor
    · rintro ⟨r, hr⟩
      rw [mem_dfOf] at hr
      obtain ⟨row, hget, hterm, -⟩ := hr
      simp only [List.tail_cons, headersOf_cons] at hget hterm
      have hroweq : row = setAt (setAt r0 si (fun _ => status)) li
          (fun _ => actor) := by
        have := hget2.symm.trans hget
        injection this with h2
        exact h2.symm
      subst hroweq
      rw [hstat] at hterm
      exact hterm
    · intro hterm
      refine ⟨dropStatusCols (recordOf h0 (setAt (setAt r0 si
        (fun _ => status)) li (fun _ => actor))), ?_⟩
      rw [mem_dfOf]
      refine ⟨setAt (setAt r0 si (fun _ => status)) li (fun _ => actor),
        ?_, ?_, ?_⟩
      · simpa only [List.tail_cons] using hget2
      · simp only [headersOf_cons]
        rw [hstat]
        exact hterm
      · simp only [headersOf_cons]

/-- Witness for c4_update_invalidates_cache: a concrete two-row sheet,
a filled cache, and the terminal status Ignored. -/
theorem c4_update_invalidates_cache_witness :
    (∀ r ∈ wsEx, r.length = (headersOf wsEx).length) ∧
    0 + 1 < wsEx.length ∧
    (update_submission_status wsEx (some [(0, [("Event Name", "Old")])]) 0
        "Ignored" "alice").2.2 = true ∧
    (update_submission_status wsEx (some [(0, [("Event Name", "Old")])]) 0
        "Ignored" "alice").2.1 = none ∧
    ((∃ r, (0, r) ∈ dfOf (update_submission_status wsEx
        (some [(0, [("Event Name", "Old")])]) 0 "Ignored" "alice").1) ↔
      is_terminal "Ignored" = false) := by
  have h := c4_update_invalidates_cache wsEx
    (some [(0, [("Event Name", "Old")])]) 0 "Ignored" "alice"
    (by decide) (by decide) (by decide)
  exact ⟨by decide, by decide, by decide, h.1, h.2.2.2⟩
